import Mathlib

/-!
Shallow embedding of the MCP server core of `go-figma-mcp`
(`pkg/mcp/capabilities.go`, the server/dispatcher in the same package, and
`pkg/mcp/tools.go`), together with theorems settling the specification
claims about it.

Modelling conventions:
* Go pointers to capability records (`*ToolsCapability` etc.) are modelled at
  the value level as `Option` fields; a separate explicit-heap model
  (`CapsRef`/`CapsHeap`) is used where pointer aliasing itself is the claim.
* Go maps (`map[string]Tool` ...) are modelled as lists of descriptors keyed
  by name/uri; `range` iteration is modelled as iteration in the stored
  order.  Go guarantees no iteration order, so the stored order is one of the
  admissible executions.
* Handlers are external collaborators; they are modelled as state
  transformers `... → σ → Except String β × σ` over an abstract handler
  state `σ`, so that "the handler ran exactly once" is visible in the final
  state.  A `nil` Go handler or a `nil` capability pointer dereference is a
  runtime panic, modelled by the `panicked` outcome.
* The JSON layer (`encoding/json`) is external; request params carry their
  decoded shape directly, with decoding to the wrong shape yielding the
  abstract unmarshal error string.
-/

namespace GoFigmaMcp

/-- `ToolsCapability` from capabilities.go. -/
structure ToolsCapability where
  Provider : Bool
deriving DecidableEq

/-- `ResourcesCapability` from capabilities.go. -/
structure ResourcesCapability where
  Provider : Bool
  Subscribe : Bool
deriving DecidableEq

/-- `PromptsCapability` from capabilities.go. -/
structure PromptsCapability where
  Provider : Bool
deriving DecidableEq

/-- `LoggingCapability` from capabilities.go. -/
structure LoggingCapability where
  Provider : Bool
deriving DecidableEq

/-- `CompletionCapability` from capabilities.go. -/
structure CompletionCapability where
  Provider : Bool
deriving DecidableEq

/-- `ServerCapabilities` from capabilities.go; the Go struct holds nilable
pointers, modelled as `Option` fields. -/
structure ServerCapabilities where
  Tools : Option ToolsCapability
  Resources : Option ResourcesCapability
  Prompts : Option PromptsCapability
  Logging : Option LoggingCapability
  Completion : Option CompletionCapability
deriving DecidableEq

/-- `DefaultCapabilities` from capabilities.go: all features disabled, every
pointer field allocated. -/
def DefaultCapabilities : ServerCapabilities where
  Tools := some { Provider := false }
  Resources := some { Provider := false, Subscribe := false }
  Prompts := some { Provider := false }
  Logging := some { Provider := false }
  Completion := some { Provider := false }

/-- `AllCapabilities` from capabilities.go: all features enabled. -/
def AllCapabilities : ServerCapabilities where
  Tools := some { Provider := true }
  Resources := some { Provider := true, Subscribe := true }
  Prompts := some { Provider := true }
  Logging := some { Provider := true }
  Completion := some { Provider := true }

/-- Value-level translation of `ServerCapabilities.Merge` from
capabilities.go: `result := c`, then for each capability present in `other`
the corresponding field of `result` is (allocated if nil and) overwritten
with `other`'s sub-option values. -/
def ServerCapabilities.Merge (c other : ServerCapabilities) : ServerCapabilities :=
  let result := c
  let result :=
    match other.Tools with
    | none => result
    | some o =>
        let t := match result.Tools with
          | none => ({ Provider := false } : ToolsCapability)
          | some t => t
        { result with Tools := some { t with Provider := o.Provider } }
  let result :=
    match other.Resources with
    | none => result
    | some o =>
        let r := match result.Resources with
          | none => ({ Provider := false, Subscribe := false } : ResourcesCapability)
          | some r => r
        { result with Resources := some { r with Provider := o.Provider, Subscribe := o.Subscribe } }
  let result :=
    match other.Prompts with
    | none => result
    | some o =>
        let p := match result.Prompts with
          | none => ({ Provider := false } : PromptsCapability)
          | some p => p
        { result with Prompts := some { p with Provider := o.Provider } }
  let result :=
    match other.Logging with
    | none => result
    | some o =>
        let l := match result.Logging with
          | none => ({ Provider := false } : LoggingCapability)
          | some l => l
        { result with Logging := some { l with Provider := o.Provider } }
  let result :=
    match other.Completion with
    | none => result
    | some o =>
        let q := match result.Completion with
          | none => ({ Provider := false } : CompletionCapability)
          | some q => q
        { result with Completion := some { q with Provider := o.Provider } }
  result

/-- `HasAnyCapability` from capabilities.go. -/
def ServerCapabilities.HasAnyCapability (c : ServerCapabilities) : Bool :=
  (match c.Tools with | some t => t.Provider | none => false) ||
  (match c.Resources with | some r => r.Provider | none => false) ||
  (match c.Prompts with | some p => p.Provider | none => false) ||
  (match c.Logging with | some l => l.Provider | none => false) ||
  (match c.Completion with | some q => q.Provider | none => false)

/-! ### Pointer-level model of `Merge`

The Go receiver `c` holds *pointers* to its capability records.  `result := c`
copies the pointers, and `result.Tools.Provider = other.Tools.Provider`
writes through the shared pointer.  To state claims about this aliasing the
capability records live in an explicit heap: one address space per record
type (distinct Go pointer types cannot alias each other). -/

/-- A `ServerCapabilities` value at the pointer level: each field is a
nilable address into the corresponding cell space of a `CapsHeap`. -/
structure CapsRef where
  Tools : Option Nat
  Resources : Option Nat
  Prompts : Option Nat
  Logging : Option Nat
  Completion : Option Nat
deriving DecidableEq

/-- The heap of capability records: cell contents are the record fields
(`Provider`, and `Subscribe` for resources), with an allocation counter per
cell space. -/
structure CapsHeap where
  toolsCells : Nat → Bool
  resourcesCells : Nat → Bool × Bool
  promptsCells : Nat → Bool
  loggingCells : Nat → Bool
  completionCells : Nat → Bool
  nextTools : Nat
  nextResources : Nat
  nextPrompts : Nat
  nextLogging : Nat
  nextCompletion : Nat

/-- Pointwise store update for a cell space. -/
def writeCell (cells : Nat → α) (a : Nat) (v : α) : Nat → α :=
  fun n => if n = a then v else cells n

/-- Pointer-level translation of `ServerCapabilities.Merge`: `result := c`
copies the five pointers; for each capability present in `other`, a nil
`result` pointer is replaced by a freshly allocated zero record, and then the
sub-option values are written through `result`'s (possibly shared) pointer. -/
def MergeRef (h : CapsHeap) (c other : CapsRef) : CapsHeap × CapsRef :=
  let result := c
  let (h, result) :=
    match other.Tools with
    | none => (h, result)
    | some b =>
        let (h, result) :=
          match result.Tools with
          | none =>
              ({ h with toolsCells := writeCell h.toolsCells h.nextTools false,
                        nextTools := h.nextTools + 1 },
               { result with Tools := some h.nextTools })
          | some _ => (h, result)
        match result.Tools with
        | none => (h, result)
        | some a =>
            ({ h with toolsCells := writeCell h.toolsCells a (h.toolsCells b) }, result)
  let (h, result) :=
    match other.Resources with
    | none => (h, result)
    | some b =>
        let (h, result) :=
          match result.Resources with
          | none =>
              ({ h with resourcesCells := writeCell h.resourcesCells h.nextResources (false, false),
                        nextResources := h.nextResources + 1 },
               { result with Resources := some h.nextResources })
          | some _ => (h, result)
        match result.Resources with
        | none => (h, result)
        | some a =>
            ({ h with resourcesCells := writeCell h.resourcesCells a (h.resourcesCells b) }, result)
  let (h, result) :=
    match other.Prompts with
    | none => (h, result)
    | some b =>
        let (h, result) :=
          match result.Prompts with
          | none =>
              ({ h with promptsCells := writeCell h.promptsCells h.nextPrompts false,
                        nextPrompts := h.nextPrompts + 1 },
               { result with Prompts := some h.nextPrompts })
          | some _ => (h, result)
        match result.Prompts with
        | none => (h, result)
        | some a =>
            ({ h with promptsCells := writeCell h.promptsCells a (h.promptsCells b) }, result)
  let (h, result) :=
    match other.Logging with
    | none => (h, result)
    | some b =>
        let (h, result) :=
          match result.Logging with
          | none =>
              ({ h with loggingCells := writeCell h.loggingCells h.nextLogging false,
                        nextLogging := h.nextLogging + 1 },
               { result with Logging := some h.nextLogging })
          | some _ => (h, result)
        match result.Logging with
        | none => (h, result)
        | some a =>
            ({ h with loggingCells := writeCell h.loggingCells a (h.loggingCells b) }, result)
  let (h, result) :=
    match other.Completion with
    | none => (h, result)
    | some b =>
        let (h, result) :=
          match result.Completion with
          | none =>
              ({ h with completionCells := writeCell h.completionCells h.nextCompletion false,
                        nextCompletion := h.nextCompletion + 1 },
               { result with Completion := some h.nextCompletion })
          | some _ => (h, result)
        match result.Completion with
        | none => (h, result)
        | some a =>
            ({ h with completionCells := writeCell h.completionCells a (h.completionCells b) }, result)
  (h, result)

/-! ### tools.go: descriptors and builders -/

/-- A JSON value, as carried in `map[string]interface{}` argument maps.  The
dispatcher never inspects argument values, so numbers are not modelled. -/
inductive JsonVal where
  | null
  | boolVal (b : Bool)
  | str (s : String)
  | arr (elems : List JsonVal)
  | obj (fields : List (String × JsonVal))

/-- A `map[string]interface{}` argument map. -/
def ArgMap := List (String × JsonVal)

/-- One property value of the builder's `schema["properties"]` map. -/
inductive SchemaProp where
  | simple (ty description : String)
  | array (description itemType : String)
  | object (description : String) (properties : List (String × SchemaProp))

/-- Go map insert (`m[k] = v`): replaces the binding if the key exists,
otherwise adds it. -/
def mapInsert : List (String × α) → String → α → List (String × α)
  | [], k, v => [(k, v)]
  | (k0, v0) :: rest, k, v =>
      if k0 = k then (k, v) :: rest else (k0, v0) :: mapInsert rest k v

/-- The content of the builder's `schema` map that `Build` marshals:
`{"type": ..., "properties": ..., "required": ...}`. -/
structure ToolSchema where
  ty : String
  properties : List (String × SchemaProp)
  required : List String

/-- `Tool` from tools.go.  `Handler` is nilable in Go (`json:"-"`), hence
`Option`; handlers are state transformers over the abstract handler state
`σ`. -/
structure Tool (σ : Type) where
  Name : String
  Description : String
  InputSchema : ToolSchema
  Handler : Option (ArgMap → σ → Except String String × σ)

/-- `Resource` from tools.go. -/
structure Resource (σ : Type) where
  URI : String
  Name : String
  Description : String
  MimeType : String
  Handler : Option (String → σ → Except String String × σ)

/-- `PromptArgument` from tools.go. -/
structure PromptArgument where
  Name : String
  Description : String
  Required : Bool
deriving DecidableEq

/-- `Content` from the server file: one content element of a response. -/
structure Content where
  ty : String
  text : String
deriving DecidableEq

/-- `PromptMessage` from the server file. -/
structure PromptMessage where
  role : String
  content : List Content
deriving DecidableEq

/-- `Prompt` from tools.go. -/
structure Prompt (σ : Type) where
  Name : String
  Description : String
  Arguments : List PromptArgument
  Handler : Option (ArgMap → σ → Except String (List PromptMessage) × σ)

/-- `ToolBuilder` from tools.go; the fields of its `schema` map are carried
directly. -/
structure ToolBuilder (σ : Type) where
  name : String
  description : String
  properties : List (String × SchemaProp)
  required : List String
  handler : Option (ArgMap → σ → Except String String × σ)

/-- `NewToolBuilder` from tools.go: empty properties, empty required list,
no handler. -/
def NewToolBuilder (σ : Type) (name description : String) : ToolBuilder σ where
  name := name
  description := description
  properties := []
  required := []
  handler := none

/-- `ToolBuilder.AddProperty` from tools.go: inserts the property into the
`properties` map and, when `required` is set, appends the name to the
`required` list (no duplicate check). -/
def ToolBuilder.AddProperty (tb : ToolBuilder σ) (name propType description : String)
    (required : Bool) : ToolBuilder σ :=
  let tb := { tb with
    properties := mapInsert tb.properties name (.simple propType description) }
  if required then { tb with required := tb.required ++ [name] } else tb

/-- `ToolBuilder.AddStringProperty` from tools.go. -/
def ToolBuilder.AddStringProperty (tb : ToolBuilder σ) (name description : String)
    (required : Bool) : ToolBuilder σ :=
  tb.AddProperty name "string" description required

/-- `ToolBuilder.AddNumberProperty` from tools.go. -/
def ToolBuilder.AddNumberProperty (tb : ToolBuilder σ) (name description : String)
    (required : Bool) : ToolBuilder σ :=
  tb.AddProperty name "number" description required

/-- `ToolBuilder.AddBooleanProperty` from tools.go. -/
def ToolBuilder.AddBooleanProperty (tb : ToolBuilder σ) (name description : String)
    (required : Bool) : ToolBuilder σ :=
  tb.AddProperty name "boolean" description required

/-- `ToolBuilder.AddArrayProperty` from tools.go. -/
def ToolBuilder.AddArrayProperty (tb : ToolBuilder σ) (name itemType description : String)
    (required : Bool) : ToolBuilder σ :=
  let tb := { tb with
    properties := mapInsert tb.properties name (.array description itemType) }
  if required then { tb with required := tb.required ++ [name] } else tb

/-- `ToolBuilder.AddObjectProperty` from tools.go. -/
def ToolBuilder.AddObjectProperty (tb : ToolBuilder σ) (name description : String)
    (properties : List (String × SchemaProp)) (required : Bool) : ToolBuilder σ :=
  let tb := { tb with
    properties := mapInsert tb.properties name (.object description properties) }
  if required then { tb with required := tb.required ++ [name] } else tb

/-- `ToolBuilder.SetHandler` from tools.go. -/
def ToolBuilder.SetHandler (tb : ToolBuilder σ)
    (handler : ArgMap → σ → Except String String × σ) : ToolBuilder σ :=
  { tb with handler := some handler }

/-- `ToolBuilder.Build` from tools.go: marshals the schema and returns the
tool.  Marshalling the structured schema values modelled here cannot fail, so
the error branch of the Go signature is never taken. -/
def ToolBuilder.Build (tb : ToolBuilder σ) : Except String (Tool σ) :=
  .ok {
    Name := tb.name
    Description := tb.description
    InputSchema := { ty := "object", properties := tb.properties, required := tb.required }
    Handler := tb.handler }

/-! ### The server / dispatcher -/

/-- `Error` from the server file (`Data` is never populated by this code). -/
structure ErrorObj where
  code : Int
  message : String
deriving DecidableEq

/-- `ServerInfo` from the server file. -/
structure ServerInfo where
  name : String
  version : String
deriving DecidableEq

/-- Decoded request params (`json.RawMessage` in Go).  Each constructor is a
byte blob that unmarshals into the corresponding params struct; `malformed`
stands for bytes that unmarshal into none of them, and `empty` for an absent
params field. -/
inductive Params where
  | empty
  | toolCall (name : String) (arguments : ArgMap)
  | resourceRead (uri : String)
  | promptGet (name : String) (arguments : ArgMap)
  | completion (refType refName argName argValue : String)
  | malformed

/-- The inner text of a `json.Unmarshal` failure (library-generated, opaque
to this code). -/
def unmarshalErrText : String := "json: cannot unmarshal params"

/-- `json.Unmarshal(msg.Params, &params)` for `ToolCallParams`. -/
def unmarshalToolCallParams : Params → Except String (String × ArgMap)
  | .toolCall name args => .ok (name, args)
  | _ => .error unmarshalErrText

/-- `json.Unmarshal(msg.Params, &params)` for `ResourceReadParams`. -/
def unmarshalResourceReadParams : Params → Except String String
  | .resourceRead uri => .ok uri
  | _ => .error unmarshalErrText

/-- `json.Unmarshal(msg.Params, &params)` for `PromptGetParams`. -/
def unmarshalPromptGetParams : Params → Except String (String × ArgMap)
  | .promptGet name args => .ok (name, args)
  | _ => .error unmarshalErrText

/-- `json.Unmarshal(msg.Params, &params)` for `CompletionParams`. -/
def unmarshalCompletionParams : Params → Except String (String × String × String × String)
  | .completion rt rn an av => .ok (rt, rn, an, av)
  | _ => .error unmarshalErrText

/-- `CompletionOption` from the server file. -/
structure CompletionOption where
  values : List String
  total : Int
  hasMore : Bool
deriving DecidableEq

/-- The typed payload stored in `Message.Result` (an `interface{}` in Go):
one constructor per result struct the handlers produce. -/
inductive ResultVal (σ : Type) where
  | initializeResult (protocolVersion : String) (serverInfo : ServerInfo)
      (capabilities : ServerCapabilities)
  | toolsList (tools : List (Tool σ))
  | toolCall (content : List Content)
  | resourcesList (resources : List (Resource σ))
  | resourceRead (contents : List (String × String × String))
  | promptsList (prompts : List (Prompt σ))
  | promptGet (messages : List PromptMessage)
  | completionResult (completion : CompletionOption)

/-- `Message` from the server file: the JSON-RPC envelope.  `ID` is an opaque
`json.RawMessage`, modelled as an optional string of raw bytes. -/
structure Message (σ : Type) where
  jsonrpc : String := ""
  id : Option String := none
  method : String := ""
  params : Params := .empty
  result : Option (ResultVal σ) := none
  error : Option ErrorObj := none

/-- The outcome of handling one message: a response, a per-request error
(both with the handler state threaded through), or a Go runtime panic. -/
inductive Outcome (σ : Type) where
  | ok (resp : Message σ) (st : σ)
  | err (e : String) (st : σ)
  | panicked (e : String)

/-- Whether an outcome is a response. -/
def Outcome.isOk : Outcome σ → Bool
  | .ok .. => true
  | _ => false

/-- Whether an outcome is a per-request error. -/
def Outcome.isErr : Outcome σ → Bool
  | .err .. => true
  | _ => false

/-- The Go panic message of a nil dereference (nil capability pointer or nil
handler). -/
def nilDerefPanic : String := "runtime error: invalid memory address or nil pointer dereference"

/-- `Server` from the server file.  The three Go maps are modelled as lists
of descriptors keyed by name/uri; the I/O streams live outside the model
(`start` consumes a decoded input stream and produces the encoded output
list). -/
structure Server (σ : Type) where
  name : String
  version : String
  tools : List (Tool σ)
  resources : List (Resource σ)
  prompts : List (Prompt σ)
  capabilities : ServerCapabilities

/-- `Server.RegisterTool`: duplicate names are rejected, fresh names are
inserted. -/
def Server.RegisterTool (s : Server σ) (tool : Tool σ) : Except String (Server σ) :=
  if s.tools.any (fun t => t.Name == tool.Name) then
    .error ("tool " ++ tool.Name ++ " already registered")
  else
    .ok { s with tools := s.tools ++ [tool] }

/-- `Server.RegisterResource`: duplicate uris are rejected, fresh uris are
inserted. -/
def Server.RegisterResource (s : Server σ) (resource : Resource σ) : Except String (Server σ) :=
  if s.resources.any (fun r => r.URI == resource.URI) then
    .error ("resource " ++ resource.URI ++ " already registered")
  else
    .ok { s with resources := s.resources ++ [resource] }

/-- `Server.RegisterPrompt`: duplicate names are rejected, fresh names are
inserted. -/
def Server.RegisterPrompt (s : Server σ) (prompt : Prompt σ) : Except String (Server σ) :=
  if s.prompts.any (fun p => p.Name == prompt.Name) then
    .error ("prompt " ++ prompt.Name ++ " already registered")
  else
    .ok { s with prompts := s.prompts ++ [prompt] }

/-- `Server.handleInitialize`. -/
def Server.handleInitialize (s : Server σ) (msg : Message σ) (st : σ) : Outcome σ :=
  .ok { jsonrpc := "2.0", id := msg.id,
        result := some (.initializeResult "2024-11-05"
          { name := s.name, version := s.version } s.capabilities) } st

/-- `Server.handleToolsList`: ranges over the tools map and returns the
collected descriptors (no sorting). -/
def Server.handleToolsList (s : Server σ) (msg : Message σ) (st : σ) : Outcome σ :=
  .ok { jsonrpc := "2.0", id := msg.id, result := some (.toolsList s.tools) } st

/-- `Server.handleToolCall`: unmarshal params, look the tool up by name, run
its handler, wrap failure or package the text result. -/
def Server.handleToolCall (s : Server σ) (msg : Message σ) (st : σ) : Outcome σ :=
  match unmarshalToolCallParams msg.params with
  | .error e => .err ("invalid tool call params: " ++ e) st
  | .ok (name, args) =>
    match s.tools.find? (fun t => t.Name == name) with
    | none => .err ("tool not found: " ++ name) st
    | some tool =>
      match tool.Handler with
      | none => .panicked nilDerefPanic
      | some h =>
        match h args st with
        | (.error e, st') => .err ("tool execution failed: " ++ e) st'
        | (.ok text, st') =>
          .ok { jsonrpc := "2.0", id := msg.id,
                result := some (.toolCall [{ ty := "text", text := text }]) } st'

/-- `Server.handleResourcesList`: ranges over the resources map and returns
the collected descriptors (no sorting). -/
def Server.handleResourcesList (s : Server σ) (msg : Message σ) (st : σ) : Outcome σ :=
  .ok { jsonrpc := "2.0", id := msg.id, result := some (.resourcesList s.resources) } st

/-- `Server.handleResourceRead`: unmarshal params, look the resource up by
uri, run its handler; the result content carries the request uri, the
resource's MIME type and the handler's text. -/
def Server.handleResourceRead (s : Server σ) (msg : Message σ) (st : σ) : Outcome σ :=
  match unmarshalResourceReadParams msg.params with
  | .error e => .err ("invalid resource read params: " ++ e) st
  | .ok uri =>
    match s.resources.find? (fun r => r.URI == uri) with
    | none => .err ("resource not found: " ++ uri) st
    | some resource =>
      match resource.Handler with
      | none => .panicked nilDerefPanic
      | some h =>
        match h uri st with
        | (.error e, st') => .err ("resource read failed: " ++ e) st'
        | (.ok content, st') =>
          .ok { jsonrpc := "2.0", id := msg.id,
                result := some (.resourceRead [(uri, resource.MimeType, content)]) } st'

/-- `Server.handlePromptsList`: ranges over the prompts map and returns the
collected descriptors (no sorting). -/
def Server.handlePromptsList (s : Server σ) (msg : Message σ) (st : σ) : Outcome σ :=
  .ok { jsonrpc := "2.0", id := msg.id, result := some (.promptsList s.prompts) } st

/-- `Server.handlePromptGet`: unmarshal params, look the prompt up by name,
run its handler on the arguments. -/
def Server.handlePromptGet (s : Server σ) (msg : Message σ) (st : σ) : Outcome σ :=
  match unmarshalPromptGetParams msg.params with
  | .error e => .err ("invalid prompt get params: " ++ e) st
  | .ok (name, args) =>
    match s.prompts.find? (fun p => p.Name == name) with
    | none => .err ("prompt not found: " ++ name) st
    | some prompt =>
      match prompt.Handler with
      | none => .panicked nilDerefPanic
      | some h =>
        match h args st with
        | (.error e, st') => .err ("prompt generation failed: " ++ e) st'
        | (.ok messages, st') =>
          .ok { jsonrpc := "2.0", id := msg.id,
                result := some (.promptGet messages) } st'

/-- `Server.handleCompletion`: dereferences `s.capabilities.Completion`
(panics when nil), rejects when the capability is not negotiated, then
answers with the placeholder empty completion. -/
def Server.handleCompletion (s : Server σ) (msg : Message σ) (st : σ) : Outcome σ :=
  match s.capabilities.Completion with
  | none => .panicked nilDerefPanic
  | some cap =>
    if !cap.Provider then .err "completion not supported" st
    else
      match unmarshalCompletionParams msg.params with
      | .error e => .err ("invalid completion params: " ++ e) st
      | .ok _ =>
        .ok { jsonrpc := "2.0", id := msg.id,
              result := some (.completionResult
                { values := [], total := 0, hasMore := false }) } st

/-- `Server.handleMessage`: the routing switch on `msg.Method`. -/
def Server.handleMessage (s : Server σ) (msg : Message σ) (st : σ) : Outcome σ :=
  if msg.method = "initialize" then s.handleInitialize msg st
  else if msg.method = "tools/list" then s.handleToolsList msg st
  else if msg.method = "tools/call" then s.handleToolCall msg st
  else if msg.method = "resources/list" then s.handleResourcesList msg st
  else if msg.method = "resources/read" then s.handleResourceRead msg st
  else if msg.method = "prompts/list" then s.handlePromptsList msg st
  else if msg.method = "prompts/get" then s.handlePromptGet msg st
  else if msg.method = "completion/complete" then s.handleCompletion msg st
  else .err ("unknown method: " ++ msg.method) st

/-- `Server.sendError`: the error envelope written to the output stream —
code `-32603` for every per-request error, the error's text as message. -/
def sendError (σ : Type) (id : Option String) (e : String) : Message σ :=
  { jsonrpc := "2.0", id := id, error := some { code := -32603, message := e } }

/-- One item produced by `decoder.Decode` in the serve loop: a decoded
message or a non-EOF decode error; the end of the list is EOF. -/
inductive InputItem (σ : Type) where
  | msg (m : Message σ)
  | decodeErr (e : String)

/-- The observable result of `Server.Start`: the encoded output envelopes
together with the returned error (`none` = Go `nil`), or a runtime panic
part-way through. -/
inductive StartResult (σ : Type) where
  | done (outs : List (Message σ)) (ret : Option String) (st : σ)
  | panicked (outs : List (Message σ)) (e : String)

/-- Prepend an output envelope written before the rest of the run. -/
def StartResult.consOut : StartResult σ → Message σ → StartResult σ
  | .done outs r st, m => .done (m :: outs) r st
  | .panicked outs e, m => .panicked (m :: outs) e

/-- The output envelopes of a run. -/
def StartResult.outs : StartResult σ → List (Message σ)
  | .done outs _ _ => outs
  | .panicked outs _ => outs

/-- Whether a run terminated normally (returned to the caller). -/
def StartResult.isDone : StartResult σ → Bool
  | .done .. => true
  | .panicked .. => false

/-- `Server.Start`: the serve loop.  Decode errors other than EOF abort the
loop with a wrapped error; per-request errors are written with `sendError`
and the loop continues; a response is encoded and the loop continues.  The
context of the Go code is modelled as never cancelled, and encoding the
structured envelopes of this model cannot fail. -/
def Server.start (s : Server σ) : List (InputItem σ) → σ → StartResult σ
  | [], st => .done [] none st
  | .decodeErr e :: _, st => .done [] (some ("failed to decode message: " ++ e)) st
  | .msg m :: rest, st =>
    match s.handleMessage m st with
    | .panicked e => .panicked [] e
    | .err e st' => (s.start rest st').consOut (sendError σ m.id e)
    | .ok resp st' => (s.start rest st').consOut resp

/-- The requests the serve loop consumes and dispatches: the messages before
the first decode failure. -/
def consumedMsgs : List (InputItem σ) → List (Message σ)
  | [] => []
  | .decodeErr _ :: _ => []
  | .msg m :: rest => m :: consumedMsgs rest

/-- The value the serve loop returns for a given input stream (ignoring
panics): `none` at EOF, the wrapped decode error at the first decode
failure. -/
def firstDecodeFailure : List (InputItem σ) → Option String
  | [] => none
  | .decodeErr e :: _ => some ("failed to decode message: " ++ e)
  | .msg _ :: rest => firstDecodeFailure rest

/-- A well-formed server: every registered descriptor carries a handler and
the completion capability pointer is allocated.  Every server the repository
builds satisfies this: capabilities always come from `DefaultCapabilities` /
the builder (all five pointers allocated), and descriptors are built with
their handlers bound. -/
def Server.wf (s : Server σ) : Prop :=
  (∀ t ∈ s.tools, t.Handler.isSome = true) ∧
  (∀ r ∈ s.resources, r.Handler.isSome = true) ∧
  (∀ p ∈ s.prompts, p.Handler.isSome = true) ∧
  s.capabilities.Completion.isSome = true

/-- Register a list of tools in order, stopping at the first failure (a
sequence of `RegisterTool` calls). -/
def registerToolsAll (s : Server σ) : List (Tool σ) → Except String (Server σ)
  | [] => .ok s
  | t :: rest =>
    match s.RegisterTool t with
    | .error e => .error e
    | .ok s' => registerToolsAll s' rest

/-- Register a list of resources in order, stopping at the first failure. -/
def registerResourcesAll (s : Server σ) : List (Resource σ) → Except String (Server σ)
  | [] => .ok s
  | r :: rest =>
    match s.RegisterResource r with
    | .error e => .error e
    | .ok s' => registerResourcesAll s' rest

/-- Register a list of prompts in order, stopping at the first failure. -/
def registerPromptsAll (s : Server σ) : List (Prompt σ) → Except String (Server σ)
  | [] => .ok s
  | p :: rest =>
    match s.RegisterPrompt p with
    | .error e => .error e
    | .ok s' => registerPromptsAll s' rest

/-- The method names of the routing table in `handleMessage`. -/
def knownMethods : List String :=
  ["initialize", "tools/list", "tools/call", "resources/list", "resources/read",
   "prompts/list", "prompts/get", "completion/complete"]

/-- The tool names a `tools/list` request reports, in the order the server
emits them. -/
def listedToolNames (s : Server Unit) : List String :=
  match s.handleToolsList {} () with
  | .ok resp _ =>
    match resp.result with
    | some (.toolsList ts) => ts.map Tool.Name
    | _ => []
  | _ => []

/-- Lexicographic order on character lists. -/
def strLexLe : List Char → List Char → Bool
  | [], _ => true
  | _ :: _, [] => false
  | a :: as, b :: bs => if a < b then true else if b < a then false else strLexLe as bs

/-- Whether a list of strings is in ascending lexicographic order. -/
def sortedAsc : List String → Bool
  | [] => true
  | [_] => true
  | a :: b :: rest => if strLexLe a.data b.data then sortedAsc (b :: rest) else false

/-- A correct response to a request: it echoes the request's id and carries
exactly one of result / error. -/
def responseOk (req resp : Message σ) : Prop :=
  resp.id = req.id ∧
  ((resp.result.isSome = true ∧ resp.error = none) ∨
   (resp.result = none ∧ resp.error.isSome = true))

/-! ### Concrete instances used by counterexamples and witnesses -/

/-- The empty object schema a fresh builder produces. -/
def emptySchema : ToolSchema where
  ty := "object"
  properties := []
  required := []

/-- A trivially succeeding tool descriptor with the given name. -/
def unitTool (nm : String) : Tool Unit where
  Name := nm
  Description := ""
  InputSchema := emptySchema
  Handler := some (fun _ st => (.ok "", st))

/-- A trivially succeeding resource descriptor with the given uri. -/
def unitResource (uri : String) : Resource Unit where
  URI := uri
  Name := uri
  Description := ""
  MimeType := "text/plain"
  Handler := some (fun _ st => (.ok "", st))

/-- A trivially succeeding prompt descriptor with the given name. -/
def unitPrompt (nm : String) : Prompt Unit where
  Name := nm
  Description := ""
  Arguments := []
  Handler := some (fun _ st => (.ok [], st))

/-- An empty server with the default (all-disabled) capability set. -/
def baseServer : Server Unit where
  name := "figma"
  version := "1.0.0"
  tools := []
  resources := []
  prompts := []
  capabilities := DefaultCapabilities

/-- A server with one tool, one resource and one prompt registered. -/
def popServer : Server Unit :=
  { baseServer with
    tools := [unitTool "a"]
    resources := [unitResource "res://a"]
    prompts := [unitPrompt "p"] }

/-- The server after registering tool `b` into `baseServer`. -/
def srvB : Server Unit := { baseServer with tools := [unitTool "b"] }

/-- The server after registering tool `b` and then tool `a`. -/
def srvBA : Server Unit := { baseServer with tools := [unitTool "b", unitTool "a"] }

/-- A tool whose handler fails with message `boom` and counts its
invocations in the handler state. -/
def countTool : Tool Nat where
  Name := "boom"
  Description := ""
  InputSchema := emptySchema
  Handler := some (fun _ n => (.error "boom", n + 1))

/-- A resource whose handler fails with message `rboom` and counts its
invocations. -/
def countResource : Resource Nat where
  URI := "res://boom"
  Name := "boom"
  Description := ""
  MimeType := "text/plain"
  Handler := some (fun _ n => (.error "rboom", n + 1))

/-- A prompt whose handler fails with message `pboom` and counts its
invocations. -/
def countPrompt : Prompt Nat where
  Name := "pboom"
  Description := ""
  Arguments := []
  Handler := some (fun _ n => (.error "pboom", n + 1))

/-- A server over the invocation-counting handler state. -/
def countServer : Server Nat where
  name := "figma"
  version := "1.0.0"
  tools := [countTool]
  resources := [countResource]
  prompts := [countPrompt]
  capabilities := DefaultCapabilities

/-- A concrete input stream: two well-formed requests, a decode failure,
then a message behind it that the loop never reaches. -/
def c9items : List (InputItem Unit) :=
  [.msg { jsonrpc := "2.0", id := some "1", method := "initialize" },
   .msg { jsonrpc := "2.0", id := some "2", method := "nope" },
   .decodeErr "bad byte",
   .msg { jsonrpc := "2.0", id := some "3", method := "tools/list" }]

/-- A concrete heap for the pointer-level `Merge` claims: the cell at
address 1 of each space holds `Provider = true` (and `Subscribe = true`),
the cell at address 0 holds the zero record. -/
def exHeap : CapsHeap where
  toolsCells := fun n => n == 1
  resourcesCells := fun n => (n == 1, n == 1)
  promptsCells := fun n => n == 1
  loggingCells := fun n => n == 1
  completionCells := fun n => n == 1
  nextTools := 2
  nextResources := 2
  nextPrompts := 2
  nextLogging := 2
  nextCompletion := 2

/-- A receiver capability record whose five pointers are address 0. -/
def refAt0 : CapsRef where
  Tools := some 0
  Resources := some 0
  Prompts := some 0
  Logging := some 0
  Completion := some 0

/-- An argument capability record whose five pointers are address 1. -/
def refAt1 : CapsRef where
  Tools := some 1
  Resources := some 1
  Prompts := some 1
  Logging := some 1
  Completion := some 1

/-! ## Theorems -/

/-- C6: `Merge` is a field-wise override — every capability field present
(non-nil) in `other` has exactly `other`'s value in the result (all
sub-options replaced, no partial merge), and every field absent in `other`
keeps `c`'s value unchanged. -/
theorem c6_merge_fieldwise (c other : ServerCapabilities) :
    ((c.Merge other).Tools = match other.Tools with | some o => some o | none => c.Tools)
    ∧ ((c.Merge other).Resources = match other.Resources with | some o => some o | none => c.Resources)
    ∧ ((c.Merge other).Prompts = match other.Prompts with | some o => some o | none => c.Prompts)
    ∧ ((c.Merge other).Logging = match other.Logging with | some o => some o | none => c.Logging)
    ∧ ((c.Merge other).Completion = match other.Completion with | some o => some o | none => c.Completion) := by
  obtain ⟨ot, orr, op, ol, oq⟩ := other
  cases ot <;> cases orr <;> cases op <;> cases ol <;> cases oq <;>
    exact ⟨rfl, rfl, rfl, rfl, rfl⟩

/-- C7 counterexample: marking property `x` required twice yields the
required list `["x", "x"]` — `"x"` occurs twice, not exactly once, so
`Build` does not deduplicate. -/
theorem c7_counterexample :
    (((NewToolBuilder Unit "t" "d").AddStringProperty "x" "d1" true).AddStringProperty
        "x" "d2" true).Build.map (fun t => t.InputSchema.required) = .ok ["x", "x"]
    ∧ (((NewToolBuilder Unit "t" "d").AddStringProperty "x" "d1" true).AddStringProperty
        "x" "d2" true).Build.map (fun t => t.InputSchema.required.count "x") = .ok 2 :=
  ⟨rfl, rfl⟩

/-- C7 amended: the built schema's required list keeps one occurrence of the
property name per required-marked call — duplicates are not removed, so
adding `x` as required twice yields a required list containing `x` exactly
twice. -/
theorem c7_amended (σ : Type) (n d x d1 d2 : String) :
    (((NewToolBuilder σ n d).AddStringProperty x d1 true).AddStringProperty x d2 true).Build.map
      (fun t => t.InputSchema.required) = .ok [x, x] := by
  simp [NewToolBuilder, ToolBuilder.AddStringProperty, ToolBuilder.AddProperty,
    ToolBuilder.Build, mapInsert, Except.map]

/-- C5: in every registry, registering an already-present key fails with the
duplicate-key error (leaving the registry of the untouched server in place),
and registering a fresh key succeeds, appending the descriptor and growing
the registry by exactly one entry. -/
theorem c5_register_contract (σ : Type) (s : Server σ) (t : Tool σ) (r : Resource σ) (p : Prompt σ) :
    ((∃ t0 ∈ s.tools, t0.Name = t.Name) →
        s.RegisterTool t = .error ("tool " ++ t.Name ++ " already registered"))
    ∧ ((∀ t0 ∈ s.tools, t0.Name ≠ t.Name) →
        s.RegisterTool t = .ok { s with tools := s.tools ++ [t] } ∧
        (s.tools ++ [t]).length = s.tools.length + 1)
    ∧ ((∃ r0 ∈ s.resources, r0.URI = r.URI) →
        s.RegisterResource r = .error ("resource " ++ r.URI ++ " already registered"))
    ∧ ((∀ r0 ∈ s.resources, r0.URI ≠ r.URI) →
        s.RegisterResource r = .ok { s with resources := s.resources ++ [r] } ∧
        (s.resources ++ [r]).length = s.resources.length + 1)
    ∧ ((∃ p0 ∈ s.prompts, p0.Name = p.Name) →
        s.RegisterPrompt p = .error ("prompt " ++ p.Name ++ " already registered"))
    ∧ ((∀ p0 ∈ s.prompts, p0.Name ≠ p.Name) →
        s.RegisterPrompt p = .ok { s with prompts := s.prompts ++ [p] } ∧
        (s.prompts ++ [p]).length = s.prompts.length + 1) := by
  refine ⟨?_, ?_, ?_, ?_, ?_, ?_⟩
  · rintro ⟨t0, ht0, hname⟩
    have hany : s.tools.any (fun x => x.Name == t.Name) = true :=
      List.any_eq_true.mpr ⟨t0, ht0, by simp [hname]⟩
    simp [Server.RegisterTool, hany]
  · intro hfresh
    have hany : s.tools.any (fun x => x.Name == t.Name) = false := by
      rw [List.any_eq_false]
      intro x hx
      simp [hfresh x hx]
    exact ⟨by simp [Server.RegisterTool, hany], by simp⟩
  · rintro ⟨r0, hr0, huri⟩
    have hany : s.resources.any (fun x => x.URI == r.URI) = true :=
      List.any_eq_true.mpr ⟨r0, hr0, by simp [huri]⟩
    simp [Server.RegisterResource, hany]
  · intro hfresh
    have hany : s.resources.any (fun x => x.URI == r.URI) = false := by
      rw [List.any_eq_false]
      intro x hx
      simp [hfresh x hx]
    exact ⟨by simp [Server.RegisterResource, hany], by simp⟩
  · rintro ⟨p0, hp0, hname⟩
    have hany : s.prompts.any (fun x => x.Name == p.Name) = true :=
      List.any_eq_true.mpr ⟨p0, hp0, by simp [hname]⟩
    simp [Server.RegisterPrompt, hany]
  · intro hfresh
    have hany : s.prompts.any (fun x => x.Name == p.Name) = false := by
      rw [List.any_eq_false]
      intro x hx
      simp [hfresh x hx]
    exact ⟨by simp [Server.RegisterPrompt, hany], by simp⟩

/-- C5 witness: concrete duplicate and fresh registrations in all three
registries of `popServer`. -/
theorem c5_register_contract_witness :
    popServer.RegisterTool (unitTool "a") = .error "tool a already registered"
    ∧ (popServer.RegisterTool (unitTool "b") = .ok { popServer with tools := popServer.tools ++ [unitTool "b"] }
        ∧ (popServer.tools ++ [unitTool "b"]).length = popServer.tools.length + 1)
    ∧ popServer.RegisterResource (unitResource "res://a") = .error "resource res://a already registered"
    ∧ (popServer.RegisterResource (unitResource "res://b") = .ok { popServer with resources := popServer.resources ++ [unitResource "res://b"] }
        ∧ (popServer.resources ++ [unitResource "res://b"]).length = popServer.resources.length + 1)
    ∧ popServer.RegisterPrompt (unitPrompt "p") = .error "prompt p already registered"
    ∧ (popServer.RegisterPrompt (unitPrompt "q") = .ok { popServer with prompts := popServer.prompts ++ [unitPrompt "q"] }
        ∧ (popServer.prompts ++ [unitPrompt "q"]).length = popServer.prompts.length + 1) := by
  refine ⟨?_, ?_, ?_, ?_, ?_, ?_⟩
  · exact (c5_register_contract Unit popServer (unitTool "a") (unitResource "res://a")
      (unitPrompt "p")).1 ⟨unitTool "a", List.mem_singleton.mpr rfl, rfl⟩
  · exact (c5_register_contract Unit popServer (unitTool "b") (unitResource "res://b")
      (unitPrompt "q")).2.1 (by
        intro t0 ht0
        have ht : t0 = unitTool "a" := List.mem_singleton.mp ht0
        subst ht
        decide)
  · exact (c5_register_contract Unit popServer (unitTool "a") (unitResource "res://a")
      (unitPrompt "p")).2.2.1 ⟨unitResource "res://a", List.mem_singleton.mpr rfl, rfl⟩
  · exact (c5_register_contract Unit popServer (unitTool "b") (unitResource "res://b")
      (unitPrompt "q")).2.2.2.1 (by
        intro r0 hr0
        have hr : r0 = unitResource "res://a" := List.mem_singleton.mp hr0
        subst hr
        decide)
  · exact (c5_register_contract Unit popServer (unitTool "a") (unitResource "res://a")
      (unitPrompt "p")).2.2.2.2.1 ⟨unitPrompt "p", List.mem_singleton.mpr rfl, rfl⟩
  · exact (c5_register_contract Unit popServer (unitTool "b") (unitResource "res://b")
      (unitPrompt "q")).2.2.2.2.2 (by
        intro p0 hp0
        have hp : p0 = unitPrompt "p" := List.mem_singleton.mp hp0
        subst hp
        decide)

/-- C10: `Merge` mutates its receiver through the shared capability
pointers: when both `c` and `other` carry a given capability pointer, the
cell `c` points to holds `other`'s sub-option values after the merge (shown
for all five capability fields; the second equation of each pair says the
written cell agrees with `other`'s cell after the merge as well). -/
theorem c10_merge_aliasing (h : CapsHeap) (c other : CapsRef)
    (a1 b1 a2 b2 a3 b3 a4 b4 a5 b5 : Nat)
    (hc1 : c.Tools = some a1) (ho1 : other.Tools = some b1)
    (hc2 : c.Resources = some a2) (ho2 : other.Resources = some b2)
    (hc3 : c.Prompts = some a3) (ho3 : other.Prompts = some b3)
    (hc4 : c.Logging = some a4) (ho4 : other.Logging = some b4)
    (hc5 : c.Completion = some a5) (ho5 : other.Completion = some b5) :
    ((MergeRef h c other).1.toolsCells a1 = h.toolsCells b1
      ∧ (MergeRef h c other).1.toolsCells b1 = h.toolsCells b1)
    ∧ ((MergeRef h c other).1.resourcesCells a2 = h.resourcesCells b2
      ∧ (MergeRef h c other).1.resourcesCells b2 = h.resourcesCells b2)
    ∧ ((MergeRef h c other).1.promptsCells a3 = h.promptsCells b3
      ∧ (MergeRef h c other).1.promptsCells b3 = h.promptsCells b3)
    ∧ ((MergeRef h c other).1.loggingCells a4 = h.loggingCells b4
      ∧ (MergeRef h c other).1.loggingCells b4 = h.loggingCells b4)
    ∧ ((MergeRef h c other).1.completionCells a5 = h.completionCells b5
      ∧ (MergeRef h c other).1.completionCells b5 = h.completionCells b5) := by
  obtain ⟨ct, crr, cp, cl, cq⟩ := c
  obtain ⟨ot, orr, op, ol, oq⟩ := other
  simp only at hc1 ho1 hc2 ho2 hc3 ho3 hc4 ho4 hc5 ho5
  subst hc1 ho1 hc2 ho2 hc3 ho3 hc4 ho4 hc5 ho5
  refine ⟨⟨?_, ?_⟩, ⟨?_, ?_⟩, ⟨?_, ?_⟩, ⟨?_, ?_⟩, ⟨?_, ?_⟩⟩ <;>
    simp [MergeRef, writeCell, ite_self]

/-- C10 witness: a concrete heap where receiver pointers are address 0 and
the argument's pointers address 1; after the merge the receiver's cells hold
the argument's values. -/
theorem c10_merge_aliasing_witness :
    (refAt0.Tools = some 0 ∧ refAt1.Tools = some 1
      ∧ refAt0.Resources = some 0 ∧ refAt1.Resources = some 1
      ∧ refAt0.Prompts = some 0 ∧ refAt1.Prompts = some 1
      ∧ refAt0.Logging = some 0 ∧ refAt1.Logging = some 1
      ∧ refAt0.Completion = some 0 ∧ refAt1.Completion = some 1)
    ∧ (((MergeRef exHeap refAt0 refAt1).1.toolsCells 0 = exHeap.toolsCells 1
        ∧ (MergeRef exHeap refAt0 refAt1).1.toolsCells 1 = exHeap.toolsCells 1)
      ∧ ((MergeRef exHeap refAt0 refAt1).1.resourcesCells 0 = exHeap.resourcesCells 1
        ∧ (MergeRef exHeap refAt0 refAt1).1.resourcesCells 1 = exHeap.resourcesCells 1)
      ∧ ((MergeRef exHeap refAt0 refAt1).1.promptsCells 0 = exHeap.promptsCells 1
        ∧ (MergeRef exHeap refAt0 refAt1).1.promptsCells 1 = exHeap.promptsCells 1)
      ∧ ((MergeRef exHeap refAt0 refAt1).1.loggingCells 0 = exHeap.loggingCells 1
        ∧ (MergeRef exHeap refAt0 refAt1).1.loggingCells 1 = exHeap.loggingCells 1)
      ∧ ((MergeRef exHeap refAt0 refAt1).1.completionCells 0 = exHeap.completionCells 1
        ∧ (MergeRef exHeap refAt0 refAt1).1.completionCells 1 = exHeap.completionCells 1)) :=
  ⟨⟨rfl, rfl, rfl, rfl, rfl, rfl, rfl, rfl, rfl, rfl⟩,
   c10_merge_aliasing exHeap refAt0 refAt1 0 1 0 1 0 1 0 1 0 1
     rfl rfl rfl rfl rfl rfl rfl rfl rfl rfl⟩

/-- C1 counterexample: with the default capability set (tools capability not
enabled), a `tools/list` request is dispatched successfully — `handleMessage`
produces a response, not a per-request error, so the capability gate claimed
for `tools/list` does not exist. -/
theorem c1_counterexample :
    baseServer.handleMessage { jsonrpc := "2.0", id := some "1", method := "tools/list" } ()
      = .ok { jsonrpc := "2.0", id := some "1", result := some (.toolsList []) } ()
    ∧ (baseServer.handleMessage { jsonrpc := "2.0", id := some "1", method := "tools/list" } ()).isErr = false :=
  ⟨rfl, rfl⟩

/-- C1 amended: only `completion/complete` is capability-gated — when the
completion capability is present but not enabled it fails with the
per-request error `completion not supported`, distinct from the
unknown-method error; the other listed methods are dispatched with no
capability check at all (their outcome is independent of the capability
set). -/
theorem c1_amended (σ : Type) (s : Server σ) (msg : Message σ) (st : σ) (cap : CompletionCapability)
    (hc : s.capabilities.Completion = some cap) (hp : cap.Provider = false) :
    s.handleMessage { msg with method := "completion/complete" } st = .err "completion not supported" st
    ∧ ("completion not supported" : String) ≠ "unknown method: " ++ "completion/complete"
    ∧ ∀ meth ∈ (["tools/list", "tools/call", "resources/list", "resources/read",
        "prompts/list", "prompts/get"] : List String), ∀ caps1 caps2 : ServerCapabilities,
        Server.handleMessage { s with capabilities := caps1 } { msg with method := meth } st
          = Server.handleMessage { s with capabilities := caps2 } { msg with method := meth } st := by
  refine ⟨?_, by decide, ?_⟩
  · simp [Server.handleMessage, Server.handleCompletion, hc, hp]
  · intro meth hmeth caps1 caps2
    simp only [List.mem_cons, List.not_mem_nil, or_false] at hmeth
    rcases hmeth with h | h | h | h | h | h <;> subst h <;> rfl

/-- C1 witness: `baseServer` carries `Completion` present with
`Provider = false`, and `completion/complete` then fails with the
capability error. -/
theorem c1_amended_witness :
    baseServer.capabilities.Completion = some { Provider := false }
    ∧ ({ Provider := false } : CompletionCapability).Provider = false
    ∧ baseServer.handleMessage { method := "completion/complete" } ()
        = .err "completion not supported" () :=
  ⟨rfl, rfl, (c1_amended Unit baseServer {} () { Provider := false } rfl rfl).1⟩

/-- C3 counterexample: an unknown method (`foo/bar`) and an unregistered
tool name under `tools/call` both produce error envelopes with the same code
`-32603` — the codes are not different. -/
theorem c3_counterexample :
    (baseServer.start
        [.msg { jsonrpc := "2.0", id := some "1", method := "foo/bar" },
         .msg { jsonrpc := "2.0", id := some "2", method := "tools/call",
                params := .toolCall "missing" [] }] ()).outs.map (fun m => m.error)
      = [some { code := -32603, message := "unknown method: foo/bar" },
         some { code := -32603, message := "tool not found: missing" }]
    ∧ ((baseServer.start
        [.msg { jsonrpc := "2.0", id := some "1", method := "foo/bar" },
         .msg { jsonrpc := "2.0", id := some "2", method := "tools/call",
                params := .toolCall "missing" [] }] ()).outs.map
          (fun m => m.error.map ErrorObj.code))[0]?
      = ((baseServer.start
        [.msg { jsonrpc := "2.0", id := some "1", method := "foo/bar" },
         .msg { jsonrpc := "2.0", id := some "2", method := "tools/call",
                params := .toolCall "missing" [] }] ()).outs.map
          (fun m => m.error.map ErrorObj.code))[1]? :=
  ⟨rfl, rfl⟩

/-- Error texts of the two not-found conditions can never coincide: their
first characters differ. -/
theorem unknown_ne_toolNotFound (a b : String) :
    ("unknown method: " ++ a) ≠ ("tool not found: " ++ b) := by
  intro hcontra
  have hd := congrArg String.data hcontra
  rw [String.data_append, String.data_append] at hd
  have hh := congrArg List.head? hd
  simp at hh

/-- C3 amended: both conditions are reported through `sendError` with the
single code `-32603`; they are distinguished only by their stable message
texts (`unknown method: ...` versus `tool not found: ...`), which never
coincide. -/
theorem c3_amended (σ : Type) (s : Server σ) (m : Message σ) (st : σ) (name : String) (args : ArgMap)
    (hunk : m.method ∉ knownMethods)
    (hmiss : s.tools.find? (fun t => t.Name == name) = none) :
    s.start [.msg m] st = .done [sendError σ m.id ("unknown method: " ++ m.method)] none st
    ∧ s.start [.msg { m with method := "tools/call", params := .toolCall name args }] st
        = .done [sendError σ m.id ("tool not found: " ++ name)] none st
    ∧ ∀ a b : String, ("unknown method: " ++ a) ≠ ("tool not found: " ++ b) := by
  refine ⟨?_, ?_, fun a b => unknown_ne_toolNotFound a b⟩
  · simp only [knownMethods, List.mem_cons, List.not_mem_nil, or_false, not_or] at hunk
    obtain ⟨h1, h2, h3, h4, h5, h6, h7, h8⟩ := hunk
    simp [Server.start, Server.handleMessage, h1, h2, h3, h4, h5, h6, h7, h8,
      StartResult.consOut, sendError]
  · simp [Server.start, Server.handleMessage, Server.handleToolCall,
      unmarshalToolCallParams, hmiss, StartResult.consOut, sendError]

/-- C3 witness: `foo/bar` is not a routed method and `missing` is not a
registered tool of `popServer`; both envelopes are concrete `sendError`
messages (both code `-32603`). -/
theorem c3_amended_witness :
    ("foo/bar" ∉ knownMethods)
    ∧ popServer.tools.find? (fun t => t.Name == "missing") = none
    ∧ popServer.start [.msg { jsonrpc := "2.0", id := some "9", method := "foo/bar" }] ()
        = .done [sendError Unit (some "9") ("unknown method: " ++ "foo/bar")] none ()
    ∧ popServer.start
        [.msg { jsonrpc := "2.0", id := some "9", method := "tools/call",
                params := .toolCall "missing" [] }] ()
        = .done [sendError Unit (some "9") ("tool not found: " ++ "missing")] none () :=
  ⟨by decide, rfl,
   (c3_amended Unit popServer { jsonrpc := "2.0", id := some "9", method := "foo/bar" }
      () "missing" [] (by decide) rfl).1,
   (c3_amended Unit popServer { jsonrpc := "2.0", id := some "9", method := "foo/bar" }
      () "missing" [] (by decide) rfl).2.1⟩

/-- C8 counterexample: a tool handler failing with message `boom` yields the
envelope message `tool execution failed: boom` — the handler's text is
prefixed, not passed through verbatim (the final handler state 1 records the
single invocation). -/
theorem c8_counterexample :
    countServer.start
        [.msg { jsonrpc := "2.0", id := some "1", method := "tools/call",
                params := .toolCall "boom" [] }] 0
      = .done [sendError Nat (some "1") "tool execution failed: boom"] none 1
    ∧ ("tool execution failed: boom" : String) ≠ "boom" :=
  ⟨rfl, by decide⟩

/-- C8 amended: a handler failure with message `m` is reported as a
per-request error envelope whose text is `m` with the fixed context added by
the dispatcher — `tool execution failed: `, `resource read failed: ` or
`prompt generation failed: ` — and the handler runs exactly once (the final
handler state is the state after one run). -/
theorem c8_amended (σ : Type) (s : Server σ) (st st' : σ) (m : Message σ) (emsg : String) :
    (∀ (name : String) (args : ArgMap) (tool : Tool σ) h,
      s.tools.find? (fun t => t.Name == name) = some tool →
      tool.Handler = some h →
      h args st = (.error emsg, st') →
      s.start [.msg { m with method := "tools/call", params := .toolCall name args }] st
        = .done [sendError σ m.id ("tool execution failed: " ++ emsg)] none st')
    ∧ (∀ (uri : String) (resource : Resource σ) h,
      s.resources.find? (fun r => r.URI == uri) = some resource →
      resource.Handler = some h →
      h uri st = (.error emsg, st') →
      s.start [.msg { m with method := "resources/read", params := .resourceRead uri }] st
        = .done [sendError σ m.id ("resource read failed: " ++ emsg)] none st')
    ∧ (∀ (name : String) (args : ArgMap) (prompt : Prompt σ) h,
      s.prompts.find? (fun p => p.Name == name) = some prompt →
      prompt.Handler = some h →
      h args st = (.error emsg, st') →
      s.start [.msg { m with method := "prompts/get", params := .promptGet name args }] st
        = .done [sendError σ m.id ("prompt generation failed: " ++ emsg)] none st') := by
  refine ⟨?_, ?_, ?_⟩
  · intro name args tool h hfind hh hrun
    simp [Server.start, Server.handleMessage, Server.handleToolCall,
      unmarshalToolCallParams, hfind, hh, hrun, StartResult.consOut, sendError]
  · intro uri resource h hfind hh hrun
    simp [Server.start, Server.handleMessage, Server.handleResourceRead,
      unmarshalResourceReadParams, hfind, hh, hrun, StartResult.consOut, sendError]
  · intro name args prompt h hfind hh hrun
    simp [Server.start, Server.handleMessage, Server.handlePromptGet,
      unmarshalPromptGetParams, hfind, hh, hrun, StartResult.consOut, sendError]

/-- C8 witness: the counting tool handler of `countServer` fails with
`boom`; the envelope text is the prefixed message and the final handler
state 1 shows one invocation. -/
theorem c8_amended_witness :
    countServer.tools.find? (fun t => t.Name == "boom") = some countTool
    ∧ countTool.Handler = some (fun _ n => (.error "boom", n + 1))
    ∧ (fun (_ : ArgMap) (n : Nat) => ((.error "boom" : Except String String), n + 1)) [] 0
        = ((.error "boom" : Except String String), 1)
    ∧ countServer.start
        [.msg { jsonrpc := "2.0", id := some "1", method := "tools/call",
                params := .toolCall "boom" [] }] 0
        = .done [sendError Nat (some "1") ("tool execution failed: " ++ "boom")] none 1 :=
  ⟨rfl, rfl, rfl,
   (c8_amended Nat countServer 0 1 { jsonrpc := "2.0", id := some "1" } "boom").1
     "boom" [] countTool (fun _ n => (.error "boom", n + 1)) rfl rfl rfl⟩

/-- Registering a list of tools with pairwise-distinct, fresh names succeeds
and appends them to the registry in registration order. -/
theorem registerToolsAll_ok (σ : Type) :
    ∀ (ts : List (Tool σ)) (s : Server σ),
    (ts.map Tool.Name).Nodup →
    (∀ t ∈ ts, ∀ t0 ∈ s.tools, t0.Name ≠ t.Name) →
    registerToolsAll s ts = .ok { s with tools := s.tools ++ ts } := by
  intro ts
  induction ts with
  | nil =>
    intro s _ _
    simp [registerToolsAll]
  | cons t rest ih =>
    intro s hnodup hfresh
    rw [List.map_cons, List.nodup_cons] at hnodup
    obtain ⟨hnotin, hnodup'⟩ := hnodup
    have hany : s.tools.any (fun x => x.Name == t.Name) = false := by
      rw [List.any_eq_false]
      intro x hx
      simp [hfresh t (by simp) x hx]
    have hstep : s.RegisterTool t = .ok { s with tools := s.tools ++ [t] } := by
      simp [Server.RegisterTool, hany]
    have hfresh' : ∀ t' ∈ rest, ∀ t0 ∈ ({ s with tools := s.tools ++ [t] } : Server σ).tools,
        t0.Name ≠ t'.Name := by
      intro t' ht' t0 ht0
      simp only [List.mem_append, List.mem_singleton] at ht0
      rcases ht0 with h0 | h0
      · exact hfresh t' (List.mem_cons_of_mem _ ht') t0 h0
      · subst h0
        intro hEq
        exact hnotin (hEq ▸ List.mem_map_of_mem Tool.Name ht')
    have hrec := ih { s with tools := s.tools ++ [t] } hnodup' hfresh'
    simp only [registerToolsAll, hstep, hrec]
    simp [List.append_assoc]

/-- Registering a list of resources with pairwise-distinct, fresh uris
succeeds and appends them to the registry in registration order. -/
theorem registerResourcesAll_ok (σ : Type) :
    ∀ (rs : List (Resource σ)) (s : Server σ),
    (rs.map Resource.URI).Nodup →
    (∀ r ∈ rs, ∀ r0 ∈ s.resources, r0.URI ≠ r.URI) →
    registerResourcesAll s rs = .ok { s with resources := s.resources ++ rs } := by
  intro rs
  induction rs with
  | nil =>
    intro s _ _
    simp [registerResourcesAll]
  | cons r rest ih =>
    intro s hnodup hfresh
    rw [List.map_cons, List.nodup_cons] at hnodup
    obtain ⟨hnotin, hnodup'⟩ := hnodup
    have hany : s.resources.any (fun x => x.URI == r.URI) = false := by
      rw [List.any_eq_false]
      intro x hx
      simp [hfresh r (by simp) x hx]
    have hstep : s.RegisterResource r = .ok { s with resources := s.resources ++ [r] } := by
      simp [Server.RegisterResource, hany]
    have hfresh' : ∀ r' ∈ rest, ∀ r0 ∈ ({ s with resources := s.resources ++ [r] } : Server σ).resources,
        r0.URI ≠ r'.URI := by
      intro r' hr' r0 hr0
      simp only [List.mem_append, List.mem_singleton] at hr0
      rcases hr0 with h0 | h0
      · exact hfresh r' (List.mem_cons_of_mem _ hr') r0 h0
      · subst h0
        intro hEq
        exact hnotin (hEq ▸ List.mem_map_of_mem Resource.URI hr')
    have hrec := ih { s with resources := s.resources ++ [r] } hnodup' hfresh'
    simp only [registerResourcesAll, hstep, hrec]
    simp [List.append_assoc]

/-- Registering a list of prompts with pairwise-distinct, fresh names
succeeds and appends them to the registry in registration order. -/
theorem registerPromptsAll_ok (σ : Type) :
    ∀ (ps : List (Prompt σ)) (s : Server σ),
    (ps.map Prompt.Name).Nodup →
    (∀ p ∈ ps, ∀ p0 ∈ s.prompts, p0.Name ≠ p.Name) →
    registerPromptsAll s ps = .ok { s with prompts := s.prompts ++ ps } := by
  intro ps
  induction ps with
  | nil =>
    intro s _ _
    simp [registerPromptsAll]
  | cons p rest ih =>
    intro s hnodup hfresh
    rw [List.map_cons, List.nodup_cons] at hnodup
    obtain ⟨hnotin, hnodup'⟩ := hnodup
    have hany : s.prompts.any (fun x => x.Name == p.Name) = false := by
      rw [List.any_eq_false]
      intro x hx
      simp [hfresh p (by simp) x hx]
    have hstep : s.RegisterPrompt p = .ok { s with prompts := s.prompts ++ [p] } := by
      simp [Server.RegisterPrompt, hany]
    have hfresh' : ∀ p' ∈ rest, ∀ p0 ∈ ({ s with prompts := s.prompts ++ [p] } : Server σ).prompts,
        p0.Name ≠ p'.Name := by
      intro p' hp' p0 hp0
      simp only [List.mem_append, List.mem_singleton] at hp0
      rcases hp0 with h0 | h0
      · exact hfresh p' (List.mem_cons_of_mem _ hp') p0 h0
      · subst h0
        intro hEq
        exact hnotin (hEq ▸ List.mem_map_of_mem Prompt.Name hp')
    have hrec := ih { s with prompts := s.prompts ++ [p] } hnodup' hfresh'
    simp only [registerPromptsAll, hstep, hrec]
    simp [List.append_assoc]

/-- C2 counterexample: registering tool `b` then tool `a` is a reachable
state whose `tools/list` reports `["b", "a"]` — not ascending; registering
in the other order reports `["a", "b"]`, so the output also depends on the
registration order, not only on the set of registered descriptors. -/
theorem c2_counterexample :
    baseServer.RegisterTool (unitTool "b") = .ok srvB
    ∧ srvB.RegisterTool (unitTool "a") = .ok srvBA
    ∧ listedToolNames srvBA = ["b", "a"]
    ∧ sortedAsc (listedToolNames srvBA) = false
    ∧ baseServer.RegisterTool (unitTool "a") = .ok { baseServer with tools := [unitTool "a"] }
    ∧ Server.RegisterTool { baseServer with tools := [unitTool "a"] } (unitTool "b")
        = .ok { baseServer with tools := [unitTool "a", unitTool "b"] }
    ∧ listedToolNames { baseServer with tools := [unitTool "a", unitTool "b"] } = ["a", "b"]
    ∧ (["b", "a"] : List String) ≠ ["a", "b"] :=
  ⟨rfl, rfl, rfl, by decide, rfl, rfl, rfl, by decide⟩

/-- C2 amended: after any sequence of successful registrations the three
list handlers return exactly the registered descriptors, in the registry's
iteration order (the registration order in this model) — no sorting by
name/uri is applied, so the emitted order follows the registration sequence
rather than being the ascending order of the descriptor set. -/
theorem c2_amended (σ : Type) (s : Server σ) (ts : List (Tool σ)) (rs : List (Resource σ))
    (ps : List (Prompt σ)) (msg : Message σ) (st : σ)
    (hts : (ts.map Tool.Name).Nodup)
    (hfts : ∀ t ∈ ts, ∀ t0 ∈ s.tools, t0.Name ≠ t.Name)
    (hrs : (rs.map Resource.URI).Nodup)
    (hfrs : ∀ r ∈ rs, ∀ r0 ∈ s.resources, r0.URI ≠ r.URI)
    (hps : (ps.map Prompt.Name).Nodup)
    (hfps : ∀ p ∈ ps, ∀ p0 ∈ s.prompts, p0.Name ≠ p.Name) :
    (registerToolsAll s ts = .ok { s with tools := s.tools ++ ts }
      ∧ Server.handleToolsList { s with tools := s.tools ++ ts } msg st
          = .ok { jsonrpc := "2.0", id := msg.id, result := some (.toolsList (s.tools ++ ts)) } st)
    ∧ (registerResourcesAll s rs = .ok { s with resources := s.resources ++ rs }
      ∧ Server.handleResourcesList { s with resources := s.resources ++ rs } msg st
          = .ok { jsonrpc := "2.0", id := msg.id, result := some (.resourcesList (s.resources ++ rs)) } st)
    ∧ (registerPromptsAll s ps = .ok { s with prompts := s.prompts ++ ps }
      ∧ Server.handlePromptsList { s with prompts := s.prompts ++ ps } msg st
          = .ok { jsonrpc := "2.0", id := msg.id, result := some (.promptsList (s.prompts ++ ps)) } st) :=
  ⟨⟨registerToolsAll_ok σ ts s hts hfts, rfl⟩,
   ⟨registerResourcesAll_ok σ rs s hrs hfrs, rfl⟩,
   ⟨registerPromptsAll_ok σ ps s hps hfps, rfl⟩⟩

/-- C2 witness: concrete registrations into the empty server; the lists
come back in registration order (`b` before `a`). -/
theorem c2_amended_witness :
    ([unitTool "b", unitTool "a"].map Tool.Name).Nodup
    ∧ (∀ t ∈ [unitTool "b", unitTool "a"], ∀ t0 ∈ baseServer.tools, t0.Name ≠ t.Name)
    ∧ ([unitResource "r1"].map Resource.URI).Nodup
    ∧ (∀ r ∈ [unitResource "r1"], ∀ r0 ∈ baseServer.resources, r0.URI ≠ r.URI)
    ∧ ([unitPrompt "p1"].map Prompt.Name).Nodup
    ∧ (∀ p ∈ [unitPrompt "p1"], ∀ p0 ∈ baseServer.prompts, p0.Name ≠ p.Name)
    ∧ ((registerToolsAll baseServer [unitTool "b", unitTool "a"]
          = .ok { baseServer with tools := baseServer.tools ++ [unitTool "b", unitTool "a"] }
        ∧ Server.handleToolsList { baseServer with tools := baseServer.tools ++ [unitTool "b", unitTool "a"] } {} ()
            = .ok { jsonrpc := "2.0", id := none,
                    result := some (.toolsList (baseServer.tools ++ [unitTool "b", unitTool "a"])) } ())
      ∧ (registerResourcesAll baseServer [unitResource "r1"]
          = .ok { baseServer with resources := baseServer.resources ++ [unitResource "r1"] }
        ∧ Server.handleResourcesList { baseServer with resources := baseServer.resources ++ [unitResource "r1"] } {} ()
            = .ok { jsonrpc := "2.0", id := none,
                    result := some (.resourcesList (baseServer.resources ++ [unitResource "r1"])) } ())
      ∧ (registerPromptsAll baseServer [unitPrompt "p1"]
          = .ok { baseServer with prompts := baseServer.prompts ++ [unitPrompt "p1"] }
        ∧ Server.handlePromptsList { baseServer with prompts := baseServer.prompts ++ [unitPrompt "p1"] } {} ()
            = .ok { jsonrpc := "2.0", id := none,
                    result := some (.promptsList (baseServer.prompts ++ [unitPrompt "p1"])) } ())) :=
  ⟨by decide, by decide, by decide, by decide, by decide, by decide,
   c2_amended Unit baseServer [unitTool "b", unitTool "a"] [unitResource "r1"] [unitPrompt "p1"]
     {} () (by decide) (by decide) (by decide) (by decide) (by decide) (by decide)⟩

/-- On a well-formed server, dispatching never panics: every message yields
either a per-request error or a response that echoes the request id and
carries a result and no error. -/
theorem handleMessage_cases (σ : Type) (s : Server σ) (m : Message σ) (st : σ) (hwf : s.wf) :
    (∃ e st', s.handleMessage m st = .err e st') ∨
    (∃ resp st', s.handleMessage m st = .ok resp st' ∧ resp.id = m.id
      ∧ resp.result.isSome = true ∧ resp.error = none) := by
  obtain ⟨hwt, hwr, hwp, hwc⟩ := hwf
  rw [Server.handleMessage]
  split_ifs with h1 h2 h3 h4 h5 h6 h7 h8
  · exact Or.inr
      ⟨{ jsonrpc := "2.0", id := m.id,
         result := some (.initializeResult "2024-11-05"
           { name := s.name, version := s.version } s.capabilities) },
       st, rfl, rfl, rfl, rfl⟩
  · exact Or.inr
      ⟨{ jsonrpc := "2.0", id := m.id,
         result := some (.toolsList s.tools) },
       st, rfl, rfl, rfl, rfl⟩
  · cases hu : unmarshalToolCallParams m.params with
    | error e =>
      exact Or.inl ⟨"invalid tool call params: " ++ e, st,
        by simp [Server.handleToolCall, hu]⟩
    | ok pr =>
      obtain ⟨name, args⟩ := pr
      cases hf : s.tools.find? (fun t => t.Name == name) with
      | none =>
        exact Or.inl ⟨"tool not found: " ++ name, st,
          by simp [Server.handleToolCall, hu, hf]⟩
      | some tool =>
        have hsome := hwt tool (List.mem_of_find?_eq_some hf)
        cases hh : tool.Handler with
        | none => rw [hh] at hsome; simp at hsome
        | some hdl =>
          cases hrun : hdl args st with
          | mk res st' =>
            cases res with
            | error e =>
              exact Or.inl ⟨"tool execution failed: " ++ e, st',
                by simp [Server.handleToolCall, hu, hf, hh, hrun]⟩
            | ok text =>
              exact Or.inr
                ⟨{ jsonrpc := "2.0", id := m.id,
                   result := some (.toolCall [{ ty := "text", text := text }]) },
                 st', by simp [Server.handleToolCall, hu, hf, hh, hrun], rfl, rfl, rfl⟩
  · exact Or.inr
      ⟨{ jsonrpc := "2.0", id := m.id,
         result := some (.resourcesList s.resources) },
       st, rfl, rfl, rfl, rfl⟩
  · cases hu : unmarshalResourceReadParams m.params with
    | error e =>
      exact Or.inl ⟨"invalid resource read params: " ++ e, st,
        by simp [Server.handleResourceRead, hu]⟩
    | ok uri =>
      cases hf : s.resources.find? (fun r => r.URI == uri) with
      | none =>
        exact Or.inl ⟨"resource not found: " ++ uri, st,
          by simp [Server.handleResourceRead, hu, hf]⟩
      | some resource =>
        have hsome := hwr resource (List.mem_of_find?_eq_some hf)
        cases hh : resource.Handler with
        | none => rw [hh] at hsome; simp at hsome
        | some hdl =>
          cases hrun : hdl uri st with
          | mk res st' =>
            cases res with
            | error e =>
              exact Or.inl ⟨"resource read failed: " ++ e, st',
                by simp [Server.handleResourceRead, hu, hf, hh, hrun]⟩
            | ok content =>
              exact Or.inr
                ⟨{ jsonrpc := "2.0", id := m.id,
                   result := some (.resourceRead [(uri, resource.MimeType, content)]) },
                 st', by simp [Server.handleResourceRead, hu, hf, hh, hrun], rfl, rfl, rfl⟩
  · exact Or.inr
      ⟨{ jsonrpc := "2.0", id := m.id,
         result := some (.promptsList s.prompts) },
       st, rfl, rfl, rfl, rfl⟩
  · cases hu : unmarshalPromptGetParams m.params with
    | error e =>
      exact Or.inl ⟨"invalid prompt get params: " ++ e, st,
        by simp [Server.handlePromptGet, hu]⟩
    | ok pr =>
      obtain ⟨name, args⟩ := pr
      cases hf : s.prompts.find? (fun p => p.Name == name) with
      | none =>
        exact Or.inl ⟨"prompt not found: " ++ name, st,
          by simp [Server.handlePromptGet, hu, hf]⟩
      | some prompt =>
        have hsome := hwp prompt (List.mem_of_find?_eq_some hf)
        cases hh : prompt.Handler with
        | none => rw [hh] at hsome; simp at hsome
        | some hdl =>
          cases hrun : hdl args st with
          | mk res st' =>
            cases res with
            | error e =>
              exact Or.inl ⟨"prompt generation failed: " ++ e, st',
                by simp [Server.handlePromptGet, hu, hf, hh, hrun]⟩
            | ok messages =>
              exact Or.inr
                ⟨{ jsonrpc := "2.0", id := m.id,
                   result := some (.promptGet messages) },
                 st', by simp [Server.handlePromptGet, hu, hf, hh, hrun], rfl, rfl, rfl⟩
  · cases hc : s.capabilities.Completion with
    | none => rw [hc] at hwc; simp at hwc
    | some cap =>
      cases hp : cap.Provider with
      | false =>
        exact Or.inl ⟨"completion not supported", st,
          by simp [Server.handleCompletion, hc, hp]⟩
      | true =>
        cases hu : unmarshalCompletionParams m.params with
        | error e =>
          exact Or.inl ⟨"invalid completion params: " ++ e, st,
            by simp [Server.handleCompletion, hc, hp, hu]⟩
        | ok _ =>
          exact Or.inr
            ⟨{ jsonrpc := "2.0", id := m.id,
               result := some (.completionResult { values := [], total := 0, hasMore := false }) },
             st, by simp [Server.handleCompletion, hc, hp, hu], rfl, rfl, rfl⟩
  · exact Or.inl ⟨"unknown method: " ++ m.method, st, rfl⟩

/-- On a well-formed server the serve loop terminates normally: it returns
the wrapped first decode failure (or nil at EOF) and writes one
id-preserving, result-xor-error response per consumed request. -/
theorem start_done_of_wf (σ : Type) (s : Server σ) (hwf : s.wf) :
    ∀ (items : List (InputItem σ)) (st : σ),
    ∃ outs st', s.start items st = .done outs (firstDecodeFailure items) st'
      ∧ List.Forall₂ (responseOk (σ := σ)) (consumedMsgs items) outs := by
  intro items
  induction items with
  | nil => exact fun st => ⟨[], st, rfl, List.Forall₂.nil⟩
  | cons item rest ih =>
    intro st
    cases item with
    | decodeErr e => exact ⟨[], st, rfl, List.Forall₂.nil⟩
    | msg m =>
      rcases handleMessage_cases σ s m st hwf with ⟨e, st1, heq⟩ | ⟨resp, st1, heq, hid, hres, herr⟩
      · obtain ⟨outs, st2, hrun, hall⟩ := ih st1
        refine ⟨sendError σ m.id e :: outs, st2, ?_, ?_⟩
        · simp only [Server.start, heq, hrun, StartResult.consOut]
          rfl
        · exact List.Forall₂.cons ⟨rfl, Or.inr ⟨rfl, rfl⟩⟩ hall
      · obtain ⟨outs, st2, hrun, hall⟩ := ih st1
        refine ⟨resp :: outs, st2, ?_, ?_⟩
        · simp only [Server.start, heq, hrun, StartResult.consOut]
          rfl
        · exact List.Forall₂.cons ⟨hid, Or.inl ⟨hres, herr⟩⟩ hall

/-- The first decode failure of a stream is unaffected by well-decoded
messages before it. -/
theorem firstDecodeFailure_append (msgs : List (Message σ)) (l : List (InputItem σ)) :
    firstDecodeFailure (msgs.map .msg ++ l) = firstDecodeFailure l := by
  induction msgs with
  | nil => rfl
  | cons a as iha => simpa [firstDecodeFailure] using iha

/-- The messages consumed from a stream of well-decoded messages followed by
a decode failure are exactly the messages before the failure. -/
theorem consumedMsgs_append_decodeErr (msgs : List (Message σ)) (e : String)
    (rest : List (InputItem σ)) :
    consumedMsgs (msgs.map .msg ++ .decodeErr e :: rest) = msgs := by
  induction msgs with
  | nil => rfl
  | cons a as iha => simp [consumedMsgs, iha]

/-- `popServer` is well-formed: every registered descriptor has a handler
and the completion capability pointer is allocated. -/
theorem popServer_wf : popServer.wf :=
  ⟨by decide, by decide, by decide, by decide⟩

/-- C9: every request the serve loop consumes before a fatal termination
receives exactly one response envelope, carrying the request's id and
exactly one of result / error — the outputs correspond one-to-one (in
order) to the consumed requests. -/
theorem c9_one_response_per_request (σ : Type) (s : Server σ) (items : List (InputItem σ))
    (st : σ) (hwf : s.wf) :
    (s.start items st).isDone = true
    ∧ List.Forall₂ (responseOk (σ := σ)) (consumedMsgs items) (s.start items st).outs
    ∧ (s.start items st).outs.length = (consumedMsgs items).length := by
  obtain ⟨outs, st', heq, hall⟩ := start_done_of_wf σ s hwf items st
  rw [heq]
  exact ⟨rfl, hall, hall.length_eq.symm⟩

/-- C9 witness: on a concrete four-item stream (two requests, a decode
failure, an unreachable message) the loop answers exactly the two consumed
requests. -/
theorem c9_one_response_per_request_witness :
    popServer.wf
    ∧ ((popServer.start c9items ()).isDone = true
      ∧ List.Forall₂ (responseOk (σ := Unit)) (consumedMsgs c9items) (popServer.start c9items ()).outs
      ∧ (popServer.start c9items ()).outs.length = (consumedMsgs c9items).length) :=
  ⟨popServer_wf, c9_one_response_per_request Unit popServer c9items () popServer_wf⟩

/-- C4: a non-EOF decode failure terminates the loop at once — the loop
returns the decode error (wrapped in the fixed `failed to decode message: `
context) and processes none of the input behind it, having answered exactly
the messages before it; a stream that simply ends (EOF) makes the loop
return nil. -/
theorem c4_decode_fatal_eof_nil (σ : Type) (s : Server σ) (st : σ) (msgs : List (Message σ))
    (e : String) (rest : List (InputItem σ)) (hwf : s.wf) :
    (∃ outs st', s.start (msgs.map .msg ++ .decodeErr e :: rest) st
        = .done outs (some ("failed to decode message: " ++ e)) st'
      ∧ outs.length = msgs.length)
    ∧ (∃ outs st', s.start (msgs.map .msg) st = .done outs none st') := by
  constructor
  · obtain ⟨outs, st', heq, hall⟩ :=
      start_done_of_wf σ s hwf (msgs.map .msg ++ .decodeErr e :: rest) st
    rw [firstDecodeFailure_append, consumedMsgs_append_decodeErr] at *
    exact ⟨outs, st', heq, hall.length_eq.symm⟩
  · obtain ⟨outs, st', heq, hall⟩ := start_done_of_wf σ s hwf (msgs.map .msg) st
    have hfd : firstDecodeFailure (msgs.map InputItem.msg) = none := by
      have := firstDecodeFailure_append (σ := σ) msgs []
      rwa [List.append_nil] at this
    rw [hfd] at heq
    exact ⟨outs, st', heq⟩

/-- C4 witness: a concrete stream with one good message, then a decode
failure, then an unreachable message; and the same good message alone ending
in EOF. -/
theorem c4_decode_fatal_eof_nil_witness :
    popServer.wf
    ∧ ((∃ outs st', popServer.start
          (([{ jsonrpc := "2.0", id := some "1", method := "initialize" }] : List (Message Unit)).map .msg
            ++ .decodeErr "bad byte" :: [.msg { jsonrpc := "2.0", id := some "3", method := "tools/list" }]) ()
          = .done outs (some ("failed to decode message: " ++ "bad byte")) st'
        ∧ outs.length = ([{ jsonrpc := "2.0", id := some "1", method := "initialize" }] : List (Message Unit)).length)
      ∧ (∃ outs st', popServer.start
          (([{ jsonrpc := "2.0", id := some "1", method := "initialize" }] : List (Message Unit)).map .msg) ()
          = .done outs none st')) :=
  ⟨popServer_wf,
   c4_decode_fatal_eof_nil Unit popServer ()
     [{ jsonrpc := "2.0", id := some "1", method := "initialize" }] "bad byte"
     [.msg { jsonrpc := "2.0", id := some "3", method := "tools/list" }] popServer_wf⟩

end GoFigmaMcp
